import Mathlib

/-!
Verification of the agui-go event-conversion core.

This development shallowly embeds the stateful converter (`src/converter.go`),
the encoder and format negotiation (`src/encoder.go`), the run-input content
model (`src/types.go`) and the ADK stream handler (`src/adapter.go`) of the
agui-go repository, and settles the frozen claims about them.

Modelling conventions, stated once:
* Go machine state is passed explicitly; each Go method on a converter becomes
  a Lean function `State → args → State × events`.
* `uuid.New().String()` (and the external SDK's id generators) are modelled as
  an injective supply of distinct non-empty strings indexed by a counter that
  is threaded through the converter state (`genId`).  Only the properties
  "non-empty" and "pairwise distinct" of generated ids are relied upon by the
  repository, and both hold of the model.
* Event timestamps (`Base.Timestamp`, set from `time.Now`) are nondeterministic
  and excluded from every comparison in the repository's own tests; they are
  omitted from the embedding.
* Go's `map[string]V` is modelled as an association list holding at most one
  entry per key (`mapInsert` replaces, `mapDelete` removes).
* JSON wire data is modelled by a small JSON AST (`Json`); `encoding/json`
  details not exercised by the repository (case-insensitive field matching,
  duplicate keys beyond last-wins) are out of scope.
-/

/-- A small JSON value AST used to model `encoding/json` wire forms. -/
inductive Json where
  | null : Json
  | str (s : String) : Json
  | num (n : Int) : Json
  | bool (b : Bool) : Json
  | arr (elems : List Json) : Json
  | obj (fields : List (String × Json)) : Json
deriving Repr

/-- `listLead pat s` is true iff `pat` is an initial segment of `s`. -/
def listLead : List Char → List Char → Bool
  | [], _ => true
  | _ :: _, [] => false
  | a :: as, b :: bs => a == b && listLead as bs

/-- `listHasSub pat s` is true iff `pat` occurs contiguously inside `s`. -/
def listHasSub (pat : List Char) : List Char → Bool
  | [] => listLead pat []
  | c :: rest => listLead pat (c :: rest) || listHasSub pat rest

/-- Model of Go `strings.Contains s pat`. -/
def strContains (s pat : String) : Bool :=
  listHasSub pat.data s.data

/-- The injective fresh-id supply modelling `uuid.New().String()`:
`genId n` is a non-empty string, and distinct counters give distinct ids. -/
def genId (n : Nat) : String :=
  String.mk (List.replicate (n + 1) 'u')

theorem genId_ne_empty (n : Nat) : genId n ≠ "" := by
  intro h
  have hlen := congrArg (fun s => s.data.length) h
  simp [genId] at hlen

theorem genId_injective : Function.Injective genId := by
  intro m n h
  have hlen := congrArg (fun s => s.data.length) h
  simp [genId] at hlen
  exact hlen

/-- Go `map[string]V` as an association list: insert replaces any old entry. -/
def mapInsert {α : Type} (k : String) (v : α) (l : List (String × α)) :
    List (String × α) :=
  (k, v) :: l.filter (fun p => !(p.1 == k))

/-- Go `delete(m, k)`. -/
def mapDelete {α : Type} (k : String) (l : List (String × α)) :
    List (String × α) :=
  l.filter (fun p => !(p.1 == k))

/-- Key membership in the modelled Go map. -/
def mapHasKey {α : Type} (k : String) (l : List (String × α)) : Bool :=
  l.any (fun p => p.1 == k)

theorem mapHasKey_mapInsert {α : Type} (k : String) (v : α)
    (l : List (String × α)) : mapHasKey k (mapInsert k v l) = true := by
  simp [mapHasKey, mapInsert]

theorem mapHasKey_mapDelete {α : Type} (k : String) (l : List (String × α)) :
    mapHasKey k (mapDelete k l) = false := by
  induction l with
  | nil => rfl
  | cons p rest ih =>
      by_cases h : p.1 = k
      · simp only [mapDelete, mapHasKey, List.filter_cons] at ih ⊢
        simp [h, ih]
      · simp only [mapDelete, mapHasKey, List.filter_cons] at ih ⊢
        simp [h, ih]

/-- `Activity` from `src/types.go`; the Go field `Type` is `atype` here
(`startedAt`/`completedAt` are int64 millisecond stamps). -/
structure Activity where
  id : String
  atype : String
  status : String
  description : String
  startedAt : Int
  completedAt : Int
deriving Repr, DecidableEq

/-- The AG-UI protocol events of `src/types.go` that the converter and the
encoder construct.  Each constructor carries exactly the fields the Go struct
carries, minus the abstracted `Base` (see the module comment); `RunError.Code`
and `RunStarted.ParentRunID` are never populated by this repository and are
omitted.  `map[string]any` payloads carry string values in the model. -/
inductive Event where
  | runStarted (threadId runId : String)
  | runFinished (threadId runId : String)
  | runError (threadId runId message : String)
  | stepStarted (stepName stepId : String)
  | stepFinished (stepId : String)
  | textMessageStart (messageId role : String)
  | textMessageContent (messageId delta : String)
  | textMessageEnd (messageId : String)
  | toolCallStart (toolCallId toolCallName parentMessageId : String)
  | toolCallArgs (toolCallId delta : String)
  | toolCallEnd (toolCallId : String)
  | toolCallResult (messageId toolCallId role content : String)
  | stateDelta (delta : List (String × String))
  | activityDelta (activity : Activity)
  | custom (name : String) (payload : String)
deriving Repr, DecidableEq

/-- `Options` from `src/converter.go` (defaults all false). -/
structure COptions where
  includeRawEvents : Bool
  emitStepEvents : Bool
  emitActivityEvents : Bool
deriving Repr, DecidableEq

def defaultOptions : COptions := ⟨false, false, false⟩

/-- `toolCallState` from `src/converter.go`. -/
structure ToolCallState where
  toolCallID : String
  toolName : String
  argsBuffer : String
  started : Bool
  ended : Bool
deriving Repr, DecidableEq

/-- `stepState` from `src/converter.go` (`startedAt` timestamp abstracted;
the field is never read or written by any operation). -/
structure StepState where
  stepID : String
  stepName : String
deriving Repr, DecidableEq

/-- The mutable fields of `BaseConverter` (`src/converter.go`), plus the
fresh-id counter that models the uuid supply.  The mutex is a no-op in this
single-producer model. -/
structure ConvState where
  threadID : String
  runID : String
  currentMessageID : String
  messageStarted : Bool
  lastAuthor : String
  activeToolCalls : List (String × ToolCallState)
  activeSteps : List (String × StepState)
  options : COptions
  counter : Nat
deriving Repr, DecidableEq

/-- `NewBaseConverter`: generates thread/run ids when the caller passes "". -/
def mkBaseConverter (threadID runID : String) (o : COptions) : ConvState :=
  let tid := if threadID = "" then genId 0 else threadID
  let c1 : Nat := if threadID = "" then 1 else 0
  let rid := if runID = "" then genId c1 else runID
  let c2 := if runID = "" then c1 + 1 else c1
  { threadID := tid
    runID := rid
    currentMessageID := ""
    messageStarted := false
    lastAuthor := ""
    activeToolCalls := []
    activeSteps := []
    options := o
    counter := c2 }

/-- `BaseConverter.StartRun`. -/
def startRun (s : ConvState) : Event :=
  Event.runStarted s.threadID s.runID

/-- `BaseConverter.FinishRun`: closes any open message, then RunFinished. -/
def finishRun (s : ConvState) : ConvState × List Event :=
  if s.messageStarted then
    ({ s with messageStarted := false },
     [Event.textMessageEnd s.currentMessageID,
      Event.runFinished s.threadID s.runID])
  else
    (s, [Event.runFinished s.threadID s.runID])

/-- `BaseConverter.ErrorRun`: closes any open message, then RunError. -/
def errorRun (s : ConvState) (msg : String) : ConvState × List Event :=
  if s.messageStarted then
    ({ s with messageStarted := false },
     [Event.textMessageEnd s.currentMessageID,
      Event.runError s.threadID s.runID msg])
  else
    (s, [Event.runError s.threadID s.runID msg])

/-- `BaseConverter.StartMessage`: closes any prior open message, then opens a
new one under a fresh id. -/
def startMessage (s : ConvState) (role : String) : ConvState × List Event :=
  let closeEvts :=
    if s.messageStarted then [Event.textMessageEnd s.currentMessageID] else []
  let mid := genId s.counter
  ({ s with currentMessageID := mid, messageStarted := true,
            counter := s.counter + 1 },
   closeEvts ++ [Event.textMessageStart mid role])

/-- `BaseConverter.AddMessageContent`: echoes the stored current message id,
whether or not a message is open. -/
def addMessageContent (s : ConvState) (text : String) : ConvState × Event :=
  (s, Event.textMessageContent s.currentMessageID text)

/-- `BaseConverter.EndMessage`. -/
def endMessage (s : ConvState) : ConvState × Event :=
  ({ s with messageStarted := false },
   Event.textMessageEnd s.currentMessageID)

/-- `BaseConverter.StartToolCall`: generates an id when given "", closes any
open message, registers the call, and emits ToolCallStart.  (Setting
`messageStarted := false` unconditionally matches the Go code, which only
resets it inside the `if` — in the other branch it is already false.) -/
def startToolCall (s : ConvState) (toolName toolCallID : String) :
    ConvState × List Event :=
  let tid := if toolCallID = "" then genId s.counter else toolCallID
  let cnt := if toolCallID = "" then s.counter + 1 else s.counter
  let closeEvts :=
    if s.messageStarted then [Event.textMessageEnd s.currentMessageID] else []
  ({ s with messageStarted := false,
            activeToolCalls :=
              mapInsert tid ⟨tid, toolName, "", true, false⟩ s.activeToolCalls,
            counter := cnt },
   closeEvts ++ [Event.toolCallStart tid toolName s.currentMessageID])

/-- `BaseConverter.AddToolCallArgs`: pure echo, no state access. -/
def addToolCallArgs (s : ConvState) (toolCallID argsJSON : String) :
    ConvState × Event :=
  (s, Event.toolCallArgs toolCallID argsJSON)

/-- `BaseConverter.EndToolCall`: pure echo, no state access; in particular the
tracking entry is NOT removed. -/
def endToolCall (s : ConvState) (toolCallID : String) : ConvState × Event :=
  (s, Event.toolCallEnd toolCallID)

/-- `BaseConverter.AddToolCallResult`: fresh result-message id, evicts the
tracking entry. -/
def addToolCallResult (s : ConvState) (toolCallID content : String) :
    ConvState × Event :=
  ({ s with activeToolCalls := mapDelete toolCallID s.activeToolCalls,
            counter := s.counter + 1 },
   Event.toolCallResult (genId s.counter) toolCallID "tool" content)

/-- `BaseConverter.CreateStepEvent`. -/
def createStepEvent (stepName stepID : String) (started : Bool) : Event :=
  if started then Event.stepStarted stepName stepID
  else Event.stepFinished stepID

/-- `BaseConverter.CreateActivityEvent`. -/
def createActivityEvent (a : Activity) : Event :=
  Event.activityDelta a

/-- `BaseConverter.CreateStateDeltaEvent`. -/
def createStateDeltaEvent (delta : List (String × String)) : Event :=
  Event.stateDelta delta

/-- `BaseConverter.CreateCustomEvent` (payload collapsed to a string). -/
def createCustomEvent (name payload : String) : Event :=
  Event.custom name payload

/-- One call against the converter, for sequence reasoning. -/
inductive Op where
  | startRun
  | finishRun
  | errorRun (msg : String)
  | startMessage (role : String)
  | addMessageContent (text : String)
  | endMessage
  | startToolCall (toolName toolCallID : String)
  | addToolCallArgs (toolCallID argsJSON : String)
  | endToolCall (toolCallID : String)
  | addToolCallResult (toolCallID content : String)
  | createStepEvent (stepName stepID : String) (started : Bool)
  | createActivityEvent (activity : Activity)
  | createStateDeltaEvent (delta : List (String × String))
  | createCustomEvent (name payload : String)
deriving Repr, DecidableEq

/-- Dispatch one operation (single-event operations wrapped in a one-element
list). -/
def applyOp (s : ConvState) : Op → ConvState × List Event
  | Op.startRun => (s, [startRun s])
  | Op.finishRun => finishRun s
  | Op.errorRun msg => errorRun s msg
  | Op.startMessage role => startMessage s role
  | Op.addMessageContent text =>
      let (s', e) := addMessageContent s text; (s', [e])
  | Op.endMessage => let (s', e) := endMessage s; (s', [e])
  | Op.startToolCall name id => startToolCall s name id
  | Op.addToolCallArgs id args =>
      let (s', e) := addToolCallArgs s id args; (s', [e])
  | Op.endToolCall id => let (s', e) := endToolCall s id; (s', [e])
  | Op.addToolCallResult id content =>
      let (s', e) := addToolCallResult s id content; (s', [e])
  | Op.createStepEvent n i b => (s, [createStepEvent n i b])
  | Op.createActivityEvent a => (s, [createActivityEvent a])
  | Op.createStateDeltaEvent d => (s, [createStateDeltaEvent d])
  | Op.createCustomEvent n p => (s, [createCustomEvent n p])

/-- Run a sequence of operations, collecting the events of each call. -/
def runOps (s : ConvState) : List Op → ConvState × List (List Event)
  | [] => (s, [])
  | op :: rest =>
      let r := applyOp s op
      let r2 := runOps r.1 rest
      (r2.1, r.2 :: r2.2)

/-- The ids of messages currently open in a converter state (the Go struct can
hold at most one). -/
def openMessages (s : ConvState) : List String :=
  if s.messageStarted then [s.currentMessageID] else []

/-- The operations that must close an open message before proceeding. -/
def isClosingOp : Op → Bool
  | Op.startMessage _ => true
  | Op.startToolCall _ _ => true
  | Op.finishRun => true
  | Op.errorRun _ => true
  | _ => false

/-- `ParseAcceptHeader` from `src/encoder.go`: empty defaults to SSE, then a
substring test in switch order SSE, NDJSON, JSON, default SSE. -/
def parseAcceptHeader (accept : String) : String :=
  if accept = "" then "text/event-stream"
  else if strContains accept "text/event-stream" then "text/event-stream"
  else if strContains accept "application/x-ndjson" then "application/x-ndjson"
  else if strContains accept "application/json" then "application/json"
  else "text/event-stream"

/-- `omitempty` string field of the wire object. -/
def strField (k v : String) : List (String × Json) :=
  if v = "" then [] else [(k, Json.str v)]

/-- `omitempty` int64 field of the wire object. -/
def intField (k : String) (v : Int) : List (String × Json) :=
  if v = 0 then [] else [(k, Json.num v)]

/-- Wire form of `Activity` per its json tags. -/
def activityToJson (a : Activity) : Json :=
  Json.obj ([("id", Json.str a.id), ("type", Json.str a.atype),
             ("status", Json.str a.status)] ++
            strField "description" a.description ++
            intField "startedAt" a.startedAt ++
            intField "completedAt" a.completedAt)

/-- `Event.ToJSON` (`json.Marshal` per the struct tags of `src/types.go`),
without the abstracted timestamp. -/
def eventToJson : Event → Json
  | Event.runStarted t r =>
      Json.obj [("type", Json.str "RUN_STARTED"), ("threadId", Json.str t),
                ("runId", Json.str r)]
  | Event.runFinished t r =>
      Json.obj [("type", Json.str "RUN_FINISHED"), ("threadId", Json.str t),
                ("runId", Json.str r)]
  | Event.runError t r m =>
      Json.obj ([("type", Json.str "RUN_ERROR")] ++ strField "threadId" t ++
                strField "runId" r ++ [("message", Json.str m)])
  | Event.stepStarted n i =>
      Json.obj [("type", Json.str "STEP_STARTED"), ("stepName", Json.str n),
                ("stepId", Json.str i)]
  | Event.stepFinished i =>
      Json.obj [("type", Json.str "STEP_FINISHED"), ("stepId", Json.str i)]
  | Event.textMessageStart m ro =>
      Json.obj [("type", Json.str "TEXT_MESSAGE_START"),
                ("messageId", Json.str m), ("role", Json.str ro)]
  | Event.textMessageContent m d =>
      Json.obj [("type", Json.str "TEXT_MESSAGE_CONTENT"),
                ("messageId", Json.str m), ("delta", Json.str d)]
  | Event.textMessageEnd m =>
      Json.obj [("type", Json.str "TEXT_MESSAGE_END"),
                ("messageId", Json.str m)]
  | Event.toolCallStart id n p =>
      Json.obj ([("type", Json.str "TOOL_CALL_START"),
                 ("toolCallId", Json.str id), ("toolCallName", Json.str n)] ++
                strField "parentMessageId" p)
  | Event.toolCallArgs id d =>
      Json.obj [("type", Json.str "TOOL_CALL_ARGS"),
                ("toolCallId", Json.str id), ("delta", Json.str d)]
  | Event.toolCallEnd id =>
      Json.obj [("type", Json.str "TOOL_CALL_END"),
                ("toolCallId", Json.str id)]
  | Event.toolCallResult m id ro c =>
      Json.obj ([("type", Json.str "TOOL_CALL_RESULT"),
                 ("messageId", Json.str m), ("toolCallId", Json.str id)] ++
                strField "role" ro ++ [("content", Json.str c)])
  | Event.stateDelta kvs =>
      Json.obj [("type", Json.str "STATE_DELTA"),
                ("delta", Json.obj (kvs.map (fun p => (p.1, Json.str p.2))))]
  | Event.activityDelta a =>
      Json.obj [("type", Json.str "ACTIVITY_DELTA"),
                ("activity", activityToJson a)]
  | Event.custom n d =>
      Json.obj [("type", Json.str "CUSTOM"), ("name", Json.str n),
                ("data", Json.str d)]

/-- `MarshalEvents` from `src/encoder.go`: the wire objects are appended to a
slice that starts out nil, and `json.Marshal` of a nil slice yields the JSON
literal `null`, of a non-nil slice a JSON array. -/
def marshalEvents (events : List Event) : Json :=
  match events.map eventToJson with
  | [] => Json.null
  | x :: xs => Json.arr (x :: xs)

/-- `ContentPart` from `src/types.go`; the Go field `Type` is `ptype`,
`Data` is `dataStr`. -/
structure ContentPart where
  ptype : String
  text : String
  mimeType : String
  dataStr : String
  url : String
  id : String
  filename : String
deriving Repr, DecidableEq

/-- `Content`: Go's nil slice (`none`) versus a materialized part slice. -/
abbrev Content := Option (List ContentPart)

/-- Last-wins lookup of a string field of a JSON object, as `encoding/json`
decodes it into a Go string field: absent means zero value, a non-string
value is an error. -/
def getStrField (fields : List (String × Json)) (key : String) :
    Except String String :=
  match fields.foldl (fun acc p => if p.1 == key then some p.2 else acc) none with
  | none => Except.ok ""
  | some (Json.str s) => Except.ok s
  | some _ => Except.error ("field " ++ key ++ " is not a string")

/-- `json.Unmarshal` of one array element into a `ContentPart`: JSON `null`
leaves the zero value, an object decodes field-wise, anything else fails. -/
def partFromJson : Json → Except String ContentPart
  | Json.null => Except.ok ⟨"", "", "", "", "", "", ""⟩
  | Json.obj fields => do
      let t ← getStrField fields "type"
      let tx ← getStrField fields "text"
      let mt ← getStrField fields "mimeType"
      let dt ← getStrField fields "data"
      let u ← getStrField fields "url"
      let i ← getStrField fields "id"
      let fn ← getStrField fields "filename"
      Except.ok ⟨t, tx, mt, dt, u, i, fn⟩
  | _ => Except.error "ContentPart must be a JSON object"

/-- `Content.UnmarshalJSON` from `src/types.go`: null clears, a JSON string
becomes a single text part, a JSON array decodes element-wise, anything else
is rejected. -/
def contentUnmarshalJSON : Json → Except String Content
  | Json.null => Except.ok none
  | Json.str s => Except.ok (some [⟨"text", s, "", "", "", "", ""⟩])
  | Json.arr elems =>
      match elems.mapM partFromJson with
      | Except.ok ps => Except.ok (some ps)
      | Except.error e =>
          Except.error ("content must be string or array of ContentPart: " ++ e)
  | _ => Except.error "content must be string or array of ContentPart"

/-- Wire form of one `ContentPart` per its json tags (`type` has no
omitempty; every other field does). -/
def partToJson (p : ContentPart) : Json :=
  Json.obj ([("type", Json.str p.ptype)] ++ strField "text" p.text ++
            strField "mimeType" p.mimeType ++ strField "data" p.dataStr ++
            strField "url" p.url ++ strField "id" p.id ++
            strField "filename" p.filename)

/-- `Content.MarshalJSON` from `src/types.go`: a nil Content marshals to
`null`, everything else to the array form. -/
def contentMarshalJSON : Content → Json
  | none => Json.null
  | some ps => Json.arr (ps.map partToJson)

/-- `genai.FunctionCall` as used by the adapter: the args map is carried as
its pre-serialized JSON text (`json.Marshal(fc.Args)`), `none` for a nil map. -/
structure AdkFunctionCall where
  id : String
  name : String
  args : Option String
deriving Repr, DecidableEq

/-- `genai.FunctionResponse`: the response map carried as its serialized JSON
text, `none` for a nil map. -/
structure AdkFunctionResponse where
  id : String
  response : Option String
deriving Repr, DecidableEq

/-- `genai.ExecutableCode`. -/
structure AdkExecutableCode where
  language : String
  code : String
deriving Repr, DecidableEq

/-- `genai.CodeExecutionResult`. -/
structure AdkCodeExecResult where
  outcome : String
  output : String
deriving Repr, DecidableEq

/-- `genai.Blob` (payload bytes abstracted to their length). -/
structure AdkBlob where
  mimeType : String
  dataSize : Nat
deriving Repr, DecidableEq

/-- `genai.FileData`. -/
structure AdkFileData where
  mimeType : String
  fileURI : String
deriving Repr, DecidableEq

/-- `genai.Part` fields read by `ADKConverter.ConvertEvent`. -/
structure AdkPart where
  thought : Bool
  text : String
  functionCall : Option AdkFunctionCall
  functionResponse : Option AdkFunctionResponse
  executableCode : Option AdkExecutableCode
  codeExecutionResult : Option AdkCodeExecResult
  inlineData : Option AdkBlob
  fileData : Option AdkFileData
deriving Repr, DecidableEq

/-- `session.EventActions` fields read by `handleActions` (`any` values and
artifact versions carried as strings and ints). -/
structure AdkActions where
  stateDelta : List (String × String)
  artifactDelta : List (String × Int)
  transferToAgent : String
  escalate : Bool
deriving Repr, DecidableEq

/-- A part-free, action-free `session.EventActions`. -/
def emptyActions : AdkActions := ⟨[], [], "", false⟩

/-- `session.Event` fields read by the adapter: `content = none` models a nil
`Content` pointer. -/
structure AdkEvent where
  author : String
  content : Option (List AdkPart)
  actions : AdkActions
deriving Repr, DecidableEq

/-- Events of the external AG-UI Go SDK (`pkg/core/events`) as the adapter
constructs them.  Payloads the adapter passes opaquely (raw events, artifact
and escalation maps) are collapsed to markers; `stateDelta` carries the JSON
Patch triples (op, path, value-as-string). -/
inductive SdkEvent where
  | runStarted (threadId runId : String)
  | runFinished (threadId runId : String)
  | runError (runId message : String)
  | textMessageStart (messageId role : String)
  | textMessageContent (messageId delta : String)
  | textMessageEnd (messageId : String)
  | toolCallStart (toolCallId toolCallName : String)
  | toolCallArgs (toolCallId delta : String)
  | toolCallEnd (toolCallId : String)
  | toolCallResult (messageId toolCallId content : String)
  | thinkingStart
  | thinkingEnd
  | thinkingTextMessageStart
  | thinkingTextMessageContent (delta : String)
  | thinkingTextMessageEnd
  | activitySnapshot (messageId role : String) (payload : List (String × String))
  | stateDelta (ops : List (String × String × String))
  | stepStarted (stepName : String)
  | stepFinished (stepName : String)
  | custom (name : String) (payload : String)
  | raw
deriving Repr, DecidableEq

/-- The mutable fields of `ADKConverter` (`src/adapter.go`) plus the fresh-id
counter modelling the SDK id generators. -/
structure ADKState where
  threadID : String
  runID : String
  currentMessageID : String
  messageStarted : Bool
  activeToolCalls : List (String × Bool)
  options : COptions
  counter : Nat
deriving Repr, DecidableEq

/-- `NewADKConverter`. -/
def mkADKConverter (threadID runID : String) (o : COptions) : ADKState :=
  let tid := if threadID = "" then genId 0 else threadID
  let c1 : Nat := if threadID = "" then 1 else 0
  let rid := if runID = "" then genId c1 else runID
  let c2 := if runID = "" then c1 + 1 else c1
  { threadID := tid
    runID := rid
    currentMessageID := ""
    messageStarted := false
    activeToolCalls := []
    options := o
    counter := c2 }

/-- `ADKConverter.StartRun`. -/
def adkStartRun (s : ADKState) : SdkEvent :=
  SdkEvent.runStarted s.threadID s.runID

/-- `ADKConverter.FinishRun`. -/
def adkFinishRun (s : ADKState) : ADKState × List SdkEvent :=
  if s.messageStarted then
    ({ s with messageStarted := false },
     [SdkEvent.textMessageEnd s.currentMessageID,
      SdkEvent.runFinished s.threadID s.runID])
  else
    (s, [SdkEvent.runFinished s.threadID s.runID])

/-- `ADKConverter.ErrorRun`: closes any open message, then RunError.  Note
that `ADKHandler.handleSSE` never calls this method. -/
def adkErrorRun (s : ADKState) (msg : String) : ADKState × List SdkEvent :=
  if s.messageStarted then
    ({ s with messageStarted := false },
     [SdkEvent.textMessageEnd s.currentMessageID,
      SdkEvent.runError s.runID msg])
  else
    (s, [SdkEvent.runError s.runID msg])

/-- `ADKConverter.handleThought`. -/
def adkHandleThought (s : ADKState) (thought : String) : List SdkEvent :=
  if thought = "" then []
  else
    [SdkEvent.thinkingStart] ++
    (if s.options.emitActivityEvents then
       [SdkEvent.activitySnapshot s.currentMessageID "activity"
          [("type", "thinking")]]
     else []) ++
    [SdkEvent.thinkingTextMessageStart,
     SdkEvent.thinkingTextMessageContent thought,
     SdkEvent.thinkingTextMessageEnd,
     SdkEvent.thinkingEnd]

/-- `ADKConverter.handleTextPart`: lazily opens a message. -/
def adkHandleTextPart (s : ADKState) (author text : String) :
    ADKState × List SdkEvent :=
  if s.messageStarted then
    (s, [SdkEvent.textMessageContent s.currentMessageID text])
  else
    let role := if author = "user" then "user" else "assistant"
    let mid := genId s.counter
    ({ s with currentMessageID := mid, messageStarted := true,
              counter := s.counter + 1 },
     [SdkEvent.textMessageStart mid role,
      SdkEvent.textMessageContent mid text])

/-- `ADKConverter.handleFunctionCall`: generate id if blank, close any open
message, track the call, then ToolCallStart / optional activity snapshot /
optional ToolCallArgs / ToolCallEnd. -/
def adkHandleFunctionCall (s : ADKState) (fc : AdkFunctionCall) :
    ADKState × List SdkEvent :=
  let tid := if fc.id = "" then genId s.counter else fc.id
  let cnt := if fc.id = "" then s.counter + 1 else s.counter
  let closeEvts :=
    if s.messageStarted then [SdkEvent.textMessageEnd s.currentMessageID]
    else []
  ({ s with messageStarted := false,
            activeToolCalls := mapInsert tid true s.activeToolCalls,
            counter := cnt },
   closeEvts ++ [SdkEvent.toolCallStart tid fc.name] ++
   (if s.options.emitActivityEvents then
      [SdkEvent.activitySnapshot s.currentMessageID "activity"
         [("type", "tool_call"), ("name", fc.name)]]
    else []) ++
   (match fc.args with
    | some a => [SdkEvent.toolCallArgs tid a]
    | none => []) ++
   [SdkEvent.toolCallEnd tid])

/-- `ADKConverter.handleFunctionResponse`: generate id if blank, serialize the
response (empty string for a nil map), evict the tracking entry, fresh result
message id. -/
def adkHandleFunctionResponse (s : ADKState) (fr : AdkFunctionResponse) :
    ADKState × List SdkEvent :=
  let tid := if fr.id = "" then genId s.counter else fr.id
  let cnt := if fr.id = "" then s.counter + 1 else s.counter
  let content := match fr.response with | some r => r | none => ""
  let mid := genId cnt
  ({ s with activeToolCalls := mapDelete tid s.activeToolCalls,
            counter := cnt + 1 },
   [SdkEvent.toolCallResult mid tid content])

/-- `ADKConverter.handleExecutableCode` (payload collapsed to the code text). -/
def adkHandleExecutableCode (c : AdkExecutableCode) : List SdkEvent :=
  if c.code = "" then [] else [SdkEvent.custom "executable_code" c.code]

/-- `ADKConverter.handleCodeExecutionResult` (payload collapsed to output). -/
def adkHandleCodeExecResult (cr : AdkCodeExecResult) : List SdkEvent :=
  [SdkEvent.custom "code_execution_result" cr.output]

/-- `ADKConverter.handleInlineData` (payload collapsed to the mime type). -/
def adkHandleInlineData (b : AdkBlob) : List SdkEvent :=
  [SdkEvent.custom "inline_data" b.mimeType]

/-- `ADKConverter.handleFileData` (payload collapsed to the file URI). -/
def adkHandleFileData (f : AdkFileData) : List SdkEvent :=
  [SdkEvent.custom "file_data" f.fileURI]

/-- `ADKConverter.handleActions` (Go map iteration order modelled as list
order; opaque map payloads collapsed to their distinguishing string). -/
def adkHandleActions (s : ADKState) (a : AdkActions) : List SdkEvent :=
  (if a.stateDelta ≠ [] then
     [SdkEvent.stateDelta
        (a.stateDelta.map (fun p => ("replace", "/" ++ p.1, p.2)))]
   else []) ++
  (if a.artifactDelta ≠ [] then [SdkEvent.custom "artifact_delta" ""]
   else []) ++
  (if a.transferToAgent ≠ "" then
     [SdkEvent.custom "agent_transfer" a.transferToAgent] ++
     (if s.options.emitStepEvents then
        [SdkEvent.stepFinished s.runID,
         SdkEvent.stepStarted a.transferToAgent]
      else [])
   else []) ++
  (if a.escalate then [SdkEvent.custom "escalation" ""] else [])

/-- One iteration of the part loop in `ConvertEvent`: a non-empty thought
part short-circuits (`continue`); otherwise the part's populated fields are
handled in source order, threading converter state. -/
def adkConvertPart (s : ADKState) (author : String) (p : AdkPart) :
    ADKState × List SdkEvent :=
  if p.thought = true ∧ p.text ≠ "" then (s, adkHandleThought s p.text)
  else
    let (s1, e1) :=
      if p.text ≠ "" then adkHandleTextPart s author p.text else (s, [])
    let (s2, e2) :=
      match p.functionCall with
      | some fc => adkHandleFunctionCall s1 fc
      | none => (s1, [])
    let (s3, e3) :=
      match p.functionResponse with
      | some fr => adkHandleFunctionResponse s2 fr
      | none => (s2, [])
    let e4 :=
      match p.executableCode with
      | some c => adkHandleExecutableCode c
      | none => []
    let e5 :=
      match p.codeExecutionResult with
      | some cr => adkHandleCodeExecResult cr
      | none => []
    let e6 :=
      match p.inlineData with
      | some b => adkHandleInlineData b
      | none => []
    let e7 :=
      match p.fileData with
      | some f => adkHandleFileData f
      | none => []
    (s3, e1 ++ e2 ++ e3 ++ e4 ++ e5 ++ e6 ++ e7)

/-- The part loop of `ConvertEvent`. -/
def adkConvertParts (s : ADKState) (author : String) :
    List AdkPart → ADKState × List SdkEvent
  | [] => (s, [])
  | p :: rest =>
      let (s', e) := adkConvertPart s author p
      let (s'', e') := adkConvertParts s' author rest
      (s'', e ++ e')

/-- `ADKConverter.ConvertEvent`: optional raw event, the part loop when the
content is non-nil and non-empty, then the action events. -/
def adkConvertEvent (s : ADKState) (e : AdkEvent) : ADKState × List SdkEvent :=
  let rawEvts := if s.options.includeRawEvents then [SdkEvent.raw] else []
  let (s', partEvts) :=
    match e.content with
    | some parts =>
        if parts ≠ [] then adkConvertParts s e.author parts else (s, [])
    | none => (s, [])
  (s', rawEvts ++ partEvts ++ adkHandleActions s' e.actions)

/-- The producer loop of `ADKHandler.handleSSE`: each yielded item is either
an ADK event or an error; an error writes one RunError (the external
`WriteErrorEvent`, which does not consult the converter), sets
`errorOccurred` and breaks. -/
def adkRunLoop (runID : String) (s : ADKState) :
    List (Except String AdkEvent) → ADKState × List SdkEvent × Bool
  | [] => (s, [], false)
  | Except.error msg :: _ => (s, [SdkEvent.runError runID msg], true)
  | Except.ok e :: rest =>
      let (s', evts) := adkConvertEvent s e
      let (s'', evts', b) := adkRunLoop runID s' rest
      (s'', evts ++ evts', b)

/-- `ADKHandler.handleSSE` after session setup succeeds: RUN_STARTED, the
producer loop, and FinishRun only when no error occurred.  `ServeHTTP`
guarantees the ids are non-empty before this point; the transport is modelled
as never failing (write failures merely truncate the stream). -/
def adkHandleSSE (threadID runID : String) (o : COptions)
    (items : List (Except String AdkEvent)) : List SdkEvent :=
  let conv := mkADKConverter threadID runID o
  let (s', evts, errorOccurred) := adkRunLoop runID conv items
  [adkStartRun conv] ++ evts ++
  (if errorOccurred then [] else (adkFinishRun s').2)

/-- Message ids that an event presents as newly produced by the converter
(the fresh id of a TextMessageStart, the fresh id of a ToolCallResult). -/
def msgIdsOf : Event → List String
  | Event.textMessageStart m _ => [m]
  | Event.toolCallResult m _ _ _ => [m]
  | _ => []

/-- All converter-produced message ids in a list of events. -/
def producedMsgIds (evts : List Event) : List String :=
  (evts.map msgIdsOf).flatten

theorem producedMsgIds_append (xs ys : List Event) :
    producedMsgIds (xs ++ ys) = producedMsgIds xs ++ producedMsgIds ys := by
  simp [producedMsgIds]

/-- Each operation never decreases the fresh-id counter. -/
theorem applyOp_counter_le (s : ConvState) (op : Op) :
    s.counter ≤ (applyOp s op).1.counter := by
  cases op with
  | finishRun =>
      by_cases h : s.messageStarted <;> simp [applyOp, finishRun, h]
  | errorRun msg =>
      by_cases h : s.messageStarted <;> simp [applyOp, errorRun, h]
  | startMessage role =>
      simp [applyOp, startMessage]
  | startToolCall name id =>
      by_cases h : id = "" <;> simp [applyOp, startToolCall, h]
  | addToolCallResult id content =>
      simp [applyOp, addToolCallResult]
  | _ => simp [applyOp, addMessageContent, endMessage, addToolCallArgs,
               endToolCall]

/-- Each operation's produced message ids come from the counter interval it
consumes. -/
theorem applyOp_producedMsgIds (s : ConvState) (op : Op) :
    ∀ m ∈ producedMsgIds (applyOp s op).2,
      ∃ k, s.counter ≤ k ∧ k < (applyOp s op).1.counter ∧ m = genId k := by
  intro m hm
  cases op with
  | startRun =>
      simp [applyOp, startRun, producedMsgIds, msgIdsOf] at hm
  | finishRun =>
      by_cases h : s.messageStarted <;>
        simp [applyOp, finishRun, h, producedMsgIds, msgIdsOf] at hm
  | errorRun msg =>
      by_cases h : s.messageStarted <;>
        simp [applyOp, errorRun, h, producedMsgIds, msgIdsOf] at hm
  | startMessage role =>
      by_cases h : s.messageStarted <;>
        simp [applyOp, startMessage, h, producedMsgIds, msgIdsOf] at hm <;>
        exact ⟨s.counter, le_refl _, Nat.lt_succ_self _, hm⟩
  | addMessageContent text =>
      simp [applyOp, addMessageContent, producedMsgIds, msgIdsOf] at hm
  | endMessage =>
      simp [applyOp, endMessage, producedMsgIds, msgIdsOf] at hm
  | startToolCall name id =>
      by_cases h : id = "" <;> by_cases h2 : s.messageStarted <;>
        simp [applyOp, startToolCall, h, h2, producedMsgIds, msgIdsOf] at hm
  | addToolCallArgs id args =>
      simp [applyOp, addToolCallArgs, producedMsgIds, msgIdsOf] at hm
  | endToolCall id =>
      simp [applyOp, endToolCall, producedMsgIds, msgIdsOf] at hm
  | addToolCallResult id content =>
      simp [applyOp, addToolCallResult, producedMsgIds, msgIdsOf] at hm
      exact ⟨s.counter, le_refl _, Nat.lt_succ_self _, hm⟩
  | createStepEvent n i b =>
      cases b <;>
        simp [applyOp, createStepEvent, producedMsgIds, msgIdsOf] at hm
  | createActivityEvent a =>
      simp [applyOp, createActivityEvent, producedMsgIds, msgIdsOf] at hm
  | createStateDeltaEvent d =>
      simp [applyOp, createStateDeltaEvent, producedMsgIds, msgIdsOf] at hm
  | createCustomEvent n p =>
      simp [applyOp, createCustomEvent, producedMsgIds, msgIdsOf] at hm

theorem runOps_counter_le (ops : List Op) :
    ∀ s : ConvState, s.counter ≤ (runOps s ops).1.counter := by
  induction ops with
  | nil => intro s; simp [runOps]
  | cons op rest ih =>
      intro s
      exact le_trans (applyOp_counter_le s op) (ih (applyOp s op).1)

/-- Every converter-produced message id in a run comes from a counter value
strictly below the final counter and at least the initial one. -/
theorem runOps_producedMsgIds (ops : List Op) :
    ∀ s : ConvState, ∀ m ∈ producedMsgIds (runOps s ops).2.flatten,
      ∃ k, s.counter ≤ k ∧ k < (runOps s ops).1.counter ∧ m = genId k := by
  induction ops with
  | nil => intro s m hm; simp [runOps, producedMsgIds] at hm
  | cons op rest ih =>
      intro s m hm
      have hsplit :
          (runOps s (op :: rest)).2.flatten
            = (applyOp s op).2 ++ (runOps (applyOp s op).1 rest).2.flatten := by
        simp [runOps]
      rw [hsplit, producedMsgIds_append] at hm
      have hfin : (runOps s (op :: rest)).1.counter
          = (runOps (applyOp s op).1 rest).1.counter := by
        simp [runOps]
      rcases List.mem_append.mp hm with hL | hR
      · obtain ⟨k, hk1, hk2, hk3⟩ := applyOp_producedMsgIds s op m hL
        exact ⟨k, hk1,
          hfin ▸ lt_of_lt_of_le hk2 (runOps_counter_le rest (applyOp s op).1),
          hk3⟩
      · obtain ⟨k, hk1, hk2, hk3⟩ := ih (applyOp s op).1 m hR
        exact ⟨k, le_trans (applyOp_counter_le s op) hk1, hfin ▸ hk2, hk3⟩

theorem openMessages_length_le (s : ConvState) :
    (openMessages s).length ≤ 1 := by
  unfold openMessages; split <;> simp

/-- Any closing operation run in a state with an open message emits a
TextMessageEnd carrying that message's id. -/
theorem applyOp_closes (s : ConvState) (op : Op)
    (hc : isClosingOp op = true) (hm : s.messageStarted = true) :
    Event.textMessageEnd s.currentMessageID ∈ (applyOp s op).2 := by
  cases op <;> simp [isClosingOp] at hc
  case finishRun => simp [applyOp, finishRun, hm]
  case errorRun msg => simp [applyOp, errorRun, hm]
  case startMessage role => simp [applyOp, startMessage, hm]
  case startToolCall name id =>
    by_cases h : id = "" <;> simp [applyOp, startToolCall, hm, h]

/-- C1: in every finite operation sequence on one converter, at most one
message is open after each call, and every call to a closing operation
(StartMessage, StartToolCall, FinishRun, ErrorRun) made while a message was
open includes a TextMessageEnd carrying the previously open message's id in
its returned events. -/
theorem converter_message_invariant (t r : String) (o : COptions)
    (ops : List Op) (i : Nat) (h : i < ops.length) :
    (openMessages
        (applyOp (runOps (mkBaseConverter t r o) (ops.take i)).1
          (ops.get ⟨i, h⟩)).1).length ≤ 1 ∧
    (isClosingOp (ops.get ⟨i, h⟩) = true →
      (runOps (mkBaseConverter t r o) (ops.take i)).1.messageStarted = true →
      Event.textMessageEnd
          (runOps (mkBaseConverter t r o) (ops.take i)).1.currentMessageID ∈
        (applyOp (runOps (mkBaseConverter t r o) (ops.take i)).1
          (ops.get ⟨i, h⟩)).2) :=
  ⟨openMessages_length_le _, fun hc hm => applyOp_closes _ _ hc hm⟩

/-- Witness for C1 at the concrete sequence
StartMessage "assistant"; StartToolCall "search" "". -/
theorem converter_message_invariant_check :
    1 < ([Op.startMessage "assistant", Op.startToolCall "search" ""] :
          List Op).length ∧
    Event.textMessageEnd (genId 0) ∈
      (applyOp
        (runOps (mkBaseConverter "t" "r" defaultOptions)
          (([Op.startMessage "assistant", Op.startToolCall "search" ""] :
             List Op).take 1)).1
        (([Op.startMessage "assistant", Op.startToolCall "search" ""] :
           List Op).get ⟨1, by decide⟩)).2 := by
  refine ⟨by decide, ?_⟩
  exact (converter_message_invariant "t" "r" defaultOptions
      [Op.startMessage "assistant", Op.startToolCall "search" ""] 1
      (by decide)).2 (by decide) (by decide)

/-- C2: FinishRun with an open message `m` returns exactly
[TextMessageEnd m, RunFinished threadId runId] and closes the message;
with no open message it returns exactly [RunFinished threadId runId]. -/
theorem finishRun_spec (s : ConvState) :
    (s.messageStarted = true →
      finishRun s = ({ s with messageStarted := false },
        [Event.textMessageEnd s.currentMessageID,
         Event.runFinished s.threadID s.runID])) ∧
    (s.messageStarted = false →
      finishRun s = (s, [Event.runFinished s.threadID s.runID])) := by
  constructor <;> intro h <;> simp [finishRun, h]

/-- Witness for C2 in the state reached by StartMessage on a fresh
converter. -/
theorem finishRun_spec_check :
    (startMessage (mkBaseConverter "t" "r" defaultOptions)
        "assistant").1.messageStarted = true ∧
    finishRun (startMessage (mkBaseConverter "t" "r" defaultOptions)
        "assistant").1
      = ({ (startMessage (mkBaseConverter "t" "r" defaultOptions)
            "assistant").1 with messageStarted := false },
         [Event.textMessageEnd (genId 0), Event.runFinished "t" "r"]) := by
  refine ⟨rfl, ?_⟩
  exact (finishRun_spec (startMessage (mkBaseConverter "t" "r" defaultOptions)
      "assistant").1).1 rfl

/-- C3: StartToolCall's last returned event is a ToolCallStart whose id is
the supplied one, or freshly generated (hence non-empty) when the supplied
id is empty; the id is registered in activeToolCalls; and when a message was
open the first returned event is a TextMessageEnd for it. -/
theorem startToolCall_spec (s : ConvState) (toolName toolCallID : String) :
    ((startToolCall s toolName toolCallID).2).getLast?
        = some (Event.toolCallStart
            (if toolCallID = "" then genId s.counter else toolCallID)
            toolName s.currentMessageID) ∧
    (if toolCallID = "" then genId s.counter else toolCallID) ≠ "" ∧
    mapHasKey (if toolCallID = "" then genId s.counter else toolCallID)
        (startToolCall s toolName toolCallID).1.activeToolCalls = true ∧
    (s.messageStarted = true →
      ((startToolCall s toolName toolCallID).2).head?
        = some (Event.textMessageEnd s.currentMessageID)) := by
  by_cases h : toolCallID = "" <;> by_cases h2 : s.messageStarted
  · exact ⟨by simp [startToolCall, h, h2],
      by simpa [h] using genId_ne_empty s.counter,
      by simp [startToolCall, h, mapHasKey_mapInsert],
      fun _ => by simp [startToolCall, h, h2]⟩
  · exact ⟨by simp [startToolCall, h, h2],
      by simpa [h] using genId_ne_empty s.counter,
      by simp [startToolCall, h, mapHasKey_mapInsert],
      fun hm => absurd hm h2⟩
  · exact ⟨by simp [startToolCall, h, h2],
      by simp [h],
      by simp [startToolCall, h, mapHasKey_mapInsert],
      fun _ => by simp [startToolCall, h, h2]⟩
  · exact ⟨by simp [startToolCall, h, h2],
      by simp [h],
      by simp [startToolCall, h, mapHasKey_mapInsert],
      fun hm => absurd hm h2⟩

/-- Witness for C3: blank id, message open. -/
theorem startToolCall_spec_check :
    ((startToolCall (startMessage (mkBaseConverter "t" "r" defaultOptions)
        "assistant").1 "search" "").2).head?
      = some (Event.textMessageEnd (genId 0)) := by
  exact (startToolCall_spec (startMessage (mkBaseConverter "t" "r"
      defaultOptions) "assistant").1 "search" "").2.2.2 rfl

/-- C8: EndToolCall returns a ToolCallEnd, leaving the tracking entry in
place; AddToolCallResult evicts the id from activeToolCalls and returns a
ToolCallResult whose messageId is freshly generated, non-empty, and (over any
operation sequence from a fresh converter) distinct from every message id the
converter produced before. -/
theorem toolCall_end_result_spec :
    (∀ (s : ConvState) (id content : String),
      endToolCall s id = (s, Event.toolCallEnd id) ∧
      (mapHasKey id s.activeToolCalls = true →
        mapHasKey id (endToolCall s id).1.activeToolCalls = true) ∧
      (addToolCallResult s id content).1.activeToolCalls
        = mapDelete id s.activeToolCalls ∧
      mapHasKey id (addToolCallResult s id content).1.activeToolCalls
        = false ∧
      (addToolCallResult s id content).2
        = Event.toolCallResult (genId s.counter) id "tool" content ∧
      genId s.counter ≠ "") ∧
    (∀ (t r : String) (o : COptions) (ops : List Op) (i : Nat)
        (h : i < ops.length) (id content : String),
      ops.get ⟨i, h⟩ = Op.addToolCallResult id content →
      (applyOp (runOps (mkBaseConverter t r o) (ops.take i)).1
          (ops.get ⟨i, h⟩)).2
        = [Event.toolCallResult
            (genId (runOps (mkBaseConverter t r o) (ops.take i)).1.counter)
            id "tool" content] ∧
      genId (runOps (mkBaseConverter t r o) (ops.take i)).1.counter ∉
        producedMsgIds
          (runOps (mkBaseConverter t r o) (ops.take i)).2.flatten) := by
  constructor
  · intro s id content
    exact ⟨rfl, fun h => h, rfl, mapHasKey_mapDelete id s.activeToolCalls,
      rfl, genId_ne_empty s.counter⟩
  · intro t r o ops i h id content hop
    constructor
    · rw [hop]; rfl
    · intro hmem
      obtain ⟨k, _, hk2, hk3⟩ :=
        runOps_producedMsgIds (ops.take i) (mkBaseConverter t r o) _ hmem
      exact absurd (genId_injective hk3.symm ▸ hk2) (lt_irrefl _)

/-- Witness for C8 at the sequence StartMessage; AddToolCallResult: the
result-message id differs from the text message's id. -/
theorem toolCall_end_result_spec_check :
    ([Op.startMessage "assistant", Op.addToolCallResult "x" "42"] :
        List Op).get ⟨1, by decide⟩ = Op.addToolCallResult "x" "42" ∧
    genId (runOps (mkBaseConverter "t" "r" defaultOptions)
        (([Op.startMessage "assistant", Op.addToolCallResult "x" "42"] :
          List Op).take 1)).1.counter ∉
      producedMsgIds
        (runOps (mkBaseConverter "t" "r" defaultOptions)
          (([Op.startMessage "assistant", Op.addToolCallResult "x" "42"] :
            List Op).take 1)).2.flatten := by
  refine ⟨by decide, ?_⟩
  exact (toolCall_end_result_spec.2 "t" "r" defaultOptions
      [Op.startMessage "assistant", Op.addToolCallResult "x" "42"] 1
      (by decide) "x" "42" (by decide)).2

/-- C9 fails as stated: after StartMessage; EndMessage no message is open,
yet AddMessageContent echoes the closed message's (non-empty) id, not an
empty one. -/
theorem addMessageContent_staleId :
    ((endMessage (startMessage (mkBaseConverter "t" "r" defaultOptions)
        "assistant").1).1).messageStarted = false ∧
    (addMessageContent
        (endMessage (startMessage (mkBaseConverter "t" "r" defaultOptions)
          "assistant").1).1 "hi").2
      = Event.textMessageContent (genId 0) "hi" ∧
    genId 0 ≠ "" :=
  ⟨rfl, rfl, genId_ne_empty 0⟩

/-- C9 amended: AddMessageContent never fails and always echoes the stored
current message id; that id is empty on a fresh converter (so the claim's
empty id holds only before any message was ever opened). -/
theorem addMessageContent_spec :
    (∀ (s : ConvState) (text : String),
      addMessageContent s text
        = (s, Event.textMessageContent s.currentMessageID text)) ∧
    (∀ (t r : String) (o : COptions),
      (mkBaseConverter t r o).currentMessageID = "") :=
  ⟨fun _ _ => rfl, fun _ _ _ => rfl⟩

/-- C10: AddToolCallArgs and EndToolCall echo any toolCallID (tracked or
not, empty or not) and leave the converter state untouched. -/
theorem toolCall_args_end_pure (s : ConvState)
    (toolCallID argsJSON : String) :
    addToolCallArgs s toolCallID argsJSON
      = (s, Event.toolCallArgs toolCallID argsJSON) ∧
    endToolCall s toolCallID = (s, Event.toolCallEnd toolCallID) :=
  ⟨rfl, rfl⟩

/-- C4 fails as stated: an accept specification naming both the streaming
and the line-delimited media types resolves to the streaming format, because
the switch tests text/event-stream first. -/
theorem parseAcceptHeader_sse_wins :
    strContains "application/x-ndjson, text/event-stream"
        "application/x-ndjson" = true ∧
    parseAcceptHeader "application/x-ndjson, text/event-stream"
      = "text/event-stream" ∧
    "text/event-stream" ≠ "application/x-ndjson" := by
  refine ⟨by decide, by decide, by decide⟩

/-- C4 amended: the empty specification and any one naming
text/event-stream resolve to the streaming format; one naming
application/x-ndjson but not text/event-stream resolves to the
line-delimited format regardless of position; one naming application/json
but neither of the other two resolves to the buffered format; anything else
resolves to the streaming format. -/
theorem parseAcceptHeader_spec (accept : String) :
    (accept = "" → parseAcceptHeader accept = "text/event-stream") ∧
    (strContains accept "text/event-stream" = true →
      parseAcceptHeader accept = "text/event-stream") ∧
    (strContains accept "text/event-stream" = false →
      strContains accept "application/x-ndjson" = true →
      parseAcceptHeader accept = "application/x-ndjson") ∧
    (strContains accept "text/event-stream" = false →
      strContains accept "application/x-ndjson" = false →
      strContains accept "application/json" = true →
      parseAcceptHeader accept = "application/json") ∧
    (strContains accept "text/event-stream" = false →
      strContains accept "application/x-ndjson" = false →
      strContains accept "application/json" = false →
      parseAcceptHeader accept = "text/event-stream") := by
  by_cases h0 : accept = ""
  · subst h0
    exact ⟨fun _ => rfl, fun _ => rfl, fun _ h => absurd h (by decide),
      fun _ _ h => absurd h (by decide), fun _ _ _ => rfl⟩
  · refine ⟨fun he => absurd he h0, fun h1 => ?_, fun h1 h2 => ?_,
      fun h1 h2 h3 => ?_, fun h1 h2 h3 => ?_⟩
    · simp [parseAcceptHeader, h0, h1]
    · simp [parseAcceptHeader, h0, h1, h2]
    · simp [parseAcceptHeader, h0, h1, h2, h3]
    · simp [parseAcceptHeader, h0, h1, h2, h3]

/-- Witness for C4 amended at the plain line-delimited accept value. -/
theorem parseAcceptHeader_spec_check :
    strContains "application/x-ndjson" "text/event-stream" = false ∧
    strContains "application/x-ndjson" "application/x-ndjson" = true ∧
    parseAcceptHeader "application/x-ndjson" = "application/x-ndjson" := by
  refine ⟨by decide, by decide, ?_⟩
  exact (parseAcceptHeader_spec "application/x-ndjson").2.2.1 (by decide)
      (by decide)

/-- C6 fails as stated: a run that emits zero events produces the JSON
literal null as the buffered body, not an empty array (the wire objects are
accumulated into a slice that stays nil). -/
theorem marshalEvents_nil_null :
    marshalEvents [] = Json.null ∧ marshalEvents [] ≠ Json.arr [] :=
  ⟨rfl, fun h => Json.noConfusion h⟩

/-- C6 amended: for a non-empty event list the buffered body is the JSON
array of the wire objects, one per event in emission order; for the empty
list it is the JSON literal null. -/
theorem marshalEvents_spec :
    marshalEvents [] = Json.null ∧
    ∀ (events : List Event), events ≠ [] →
      marshalEvents events = Json.arr (events.map eventToJson) := by
  refine ⟨rfl, ?_⟩
  intro events h
  cases events with
  | nil => exact absurd rfl h
  | cons e rest => simp [marshalEvents]

/-- Witness for C6 amended at a one-event run. -/
theorem marshalEvents_spec_check :
    ([Event.runStarted "t" "r"] : List Event) ≠ [] ∧
    marshalEvents [Event.runStarted "t" "r"]
      = Json.arr [eventToJson (Event.runStarted "t" "r")] :=
  ⟨by decide, marshalEvents_spec.2 [Event.runStarted "t" "r"] (by decide)⟩

/-- C7: content decoded from a JSON string becomes the single text part with
that string, content decoded from a JSON array of parts becomes exactly those
parts, and both marshal back to the wire in the JSON array form. -/
theorem content_array_form :
    (∀ s : String,
      contentUnmarshalJSON (Json.str s)
        = Except.ok (some [⟨"text", s, "", "", "", "", ""⟩]) ∧
      contentMarshalJSON (some [⟨"text", s, "", "", "", "", ""⟩])
        = Json.arr [partToJson ⟨"text", s, "", "", "", "", ""⟩]) ∧
    (∀ (es : List Json) (ps : List ContentPart),
      es.mapM partFromJson = Except.ok ps →
      contentUnmarshalJSON (Json.arr es) = Except.ok (some ps) ∧
      contentMarshalJSON (some ps) = Json.arr (ps.map partToJson)) := by
  constructor
  · intro s; exact ⟨rfl, rfl⟩
  · intro es ps h
    refine ⟨?_, rfl⟩
    have h2 : List.mapM.loop partFromJson es [] = Except.ok ps := h
    simp [contentUnmarshalJSON, h2]

/-- Witness for C7 at the repository's own two-part test vector. -/
theorem content_array_form_check :
    ([Json.obj [("type", Json.str "text"), ("text", Json.str "hello")],
      Json.obj [("type", Json.str "image"), ("url", Json.str "image.png")]] :
        List Json).mapM partFromJson
      = Except.ok [⟨"text", "hello", "", "", "", "", ""⟩,
                   ⟨"image", "", "", "", "image.png", "", ""⟩] ∧
    contentUnmarshalJSON
        (Json.arr [Json.obj [("type", Json.str "text"),
                             ("text", Json.str "hello")],
                   Json.obj [("type", Json.str "image"),
                             ("url", Json.str "image.png")]])
      = Except.ok (some [⟨"text", "hello", "", "", "", "", ""⟩,
                         ⟨"image", "", "", "", "image.png", "", ""⟩]) :=
  ⟨rfl,
   (content_array_form.2
      [Json.obj [("type", Json.str "text"), ("text", Json.str "hello")],
       Json.obj [("type", Json.str "image"), ("url", Json.str "image.png")]]
      [⟨"text", "hello", "", "", "", "", ""⟩,
       ⟨"image", "", "", "", "image.png", "", ""⟩] rfl).1⟩

/-- An SDK event recognizer: TextMessageEnd. -/
def sdkIsTextMessageEnd : SdkEvent → Bool
  | SdkEvent.textMessageEnd _ => true
  | _ => false

/-- An SDK event recognizer: RunFinished. -/
def sdkIsRunFinished : SdkEvent → Bool
  | SdkEvent.runFinished _ _ => true
  | _ => false

/-- A producer item carrying one plain text part and no actions. -/
def adkTextOnlyEvent (author text : String) : AdkEvent :=
  ⟨author,
   some [⟨false, text, none, none, none, none, none, none⟩],
   emptyActions⟩

/-- C5 fails on the code: when the ADK producer reports an error after a
text message was opened, `handleSSE` writes the RunError directly (it never
calls the converter's ErrorRun), so the stream contains no TextMessageEnd at
all — the open message is left unclosed — though it does end with exactly one
RunError and never emits a RunFinished. -/
theorem adkHandleSSE_error_drops_message_end :
    adkHandleSSE "t" "r" defaultOptions
        [Except.ok (adkTextOnlyEvent "agent" "hi"), Except.error "boom"]
      = [SdkEvent.runStarted "t" "r",
         SdkEvent.textMessageStart (genId 0) "assistant",
         SdkEvent.textMessageContent (genId 0) "hi",
         SdkEvent.runError "r" "boom"] ∧
    ([SdkEvent.runStarted "t" "r",
      SdkEvent.textMessageStart (genId 0) "assistant",
      SdkEvent.textMessageContent (genId 0) "hi",
      SdkEvent.runError "r" "boom"].all
        (fun e => !sdkIsTextMessageEnd e && !sdkIsRunFinished e)) = true :=
  ⟨rfl, rfl⟩
